import Mathlib

/-!
# Dashboard client of the trading bot (`ui/script.js`)

A shallow embedding of `ui/script.js`: the rolling price chart
(`initializeChart`, `updateChart`), the status reconciliation (`updateStatus`),
the start and stop commands (`startBot`, `stopBot`) and the page's event loop
(`DOMContentLoaded` handler, `setInterval(updateStatus, 1000)`).

Modelling conventions.
* Values obtained from `response.json()` are `JSVal`. Numbers are the rational
  numbers (every finite double is one; the two zeros are one number and the
  infinities are left out); `NaN` is the `none` of `toNumber`. An object is the
  list of its own properties, each name once.
* The platform functions the script calls but does not define
  (`String.prototype.toUpperCase`, `Intl.NumberFormat(...).format`, the numeric
  coercion of strings and objects) are the fields of `Host`.
* `new Date().toLocaleTimeString()` is an input `timeStr` of each run.
* A DOM element the script writes to is a field of `View`.
* `console.log` and `console.error` append to `Dashboard.console`.
-/

namespace TradingBotUI

/-! ## JavaScript values -/

/-- The values `response.json()` can produce, plus `undefined` (the value of a
missing property). -/
inductive JSVal where
  | undefined : JSVal
  | null : JSVal
  | bool (b : Bool) : JSVal
  | num (q : ℚ) : JSVal
  | str (s : String) : JSVal
  | arr (items : List JSVal) : JSVal
  | obj (fields : List (String × JSVal)) : JSVal

/-- What a `throw` (or a rejected promise) carries. -/
inductive Thrown where
  /-- `new Error(message)`, thrown by the script itself. -/
  | error (message : String) : Thrown
  /-- A `TypeError` raised by the engine (property of `undefined` or `null`,
  call of a non-function). -/
  | typeError : Thrown
  /-- The rejection of `response.json()` on a body that is not JSON. -/
  | syntaxError : Thrown
  /-- The rejection of `fetch` when the server cannot be reached. -/
  | networkError : Thrown
  deriving DecidableEq

/-- Platform functions used by the script. -/
structure Host where
  /-- `String.prototype.toUpperCase`. -/
  toUpperCase : String → String
  /-- `new Intl.NumberFormat('en-US', ...).format(value)`. -/
  intlFormatUSD : JSVal → String
  /-- The numeric coercion of a string, array or object (`none` is `NaN`). -/
  toNumberHost : JSVal → Option ℚ

/-- Length of a string in UTF-16 code units (the `length` of a JS string). -/
def utf16Length (s : String) : Nat :=
  (s.data.map fun c => if c.val.toNat < 65536 then 1 else 2).sum

/-- Own-property lookup in a parsed JSON object. -/
def lookup (k : String) : List (String × JSVal) → JSVal
  | [] => .undefined
  | (k', v) :: rest => if k' = k then v else lookup k rest

/-- Property read `v.k` for the property names the script uses (`mode`,
`status`, `balances`, `USDT`, `positions`, `length`, `total_pnl`,
`current_price`, `message`): a `TypeError` on `undefined` and `null`, the
`length` of strings and arrays, the own property of an object, and `undefined`
otherwise. -/
def getProp (v : JSVal) (k : String) : Except Thrown JSVal :=
  match v with
  | .undefined => .error .typeError
  | .null => .error .typeError
  | .bool _ => .ok .undefined
  | .num _ => .ok .undefined
  | .str s => .ok (if k = "length" then .num (utf16Length s) else .undefined)
  | .arr xs => .ok (if k = "length" then .num xs.length else .undefined)
  | .obj fs => .ok (lookup k fs)

/-- Element read `v[0]`. For a string this is its first character (the first
code unit, for a character of the basic plane). -/
def getIndex0 (v : JSVal) : Except Thrown JSVal :=
  match v with
  | .undefined => .error .typeError
  | .null => .error .typeError
  | .bool _ => .ok .undefined
  | .num _ => .ok .undefined
  | .str s =>
    .ok (match s.data with
      | [] => .undefined
      | c :: _ => .str (String.singleton c))
  | .arr xs => .ok (xs.headD .undefined)
  | .obj fs => .ok (lookup "0" fs)

/-- Method call `v.toUpperCase()`: only a string has that method. -/
def callToUpperCase (h : Host) (v : JSVal) : Except Thrown String :=
  match v with
  | .str s => .ok (h.toUpperCase s)
  | _ => .error .typeError

/-- Comparison `v === s` against a string literal. -/
def strictEqStr (v : JSVal) (s : String) : Bool :=
  match v with
  | .str t => t == s
  | _ => false

/-- Truthiness of a value. -/
def truthy : JSVal → Bool
  | .undefined => false
  | .null => false
  | .bool b => b
  | .num q => q != 0
  | .str s => s != ""
  | .arr _ => true
  | .obj _ => true

/-- Operator `a || b`. -/
def jsOr (a b : JSVal) : JSVal := if truthy a then a else b

/-- Numeric coercion (`none` is `NaN`). -/
def toNumber (h : Host) : JSVal → Option ℚ
  | .undefined => none
  | .null => some 0
  | .bool b => some (if b then 1 else 0)
  | .num q => some q
  | .str s => h.toNumberHost (.str s)
  | .arr xs => h.toNumberHost (.arr xs)
  | .obj fs => h.toNumberHost (.obj fs)

/-- Comparison `v >= 0`. -/
def geZero (h : Host) (v : JSVal) : Bool :=
  match toNumber h v with
  | some q => decide (0 ≤ q)
  | none => false

/-- Comparison `v > 0`. -/
def gtZero (h : Host) (v : JSVal) : Bool :=
  match toNumber h v with
  | some q => decide (0 < q)
  | none => false

/-! ## The chart -/

/-- The constant `maxDataPoints`. -/
def maxDataPoints : Nat := 100

/-- The two arrays of `priceChart.data`: `labels` and `datasets[0].data`. -/
structure Chart where
  labels : List String
  data : List JSVal

/-- The chart built by `initializeChart`: both arrays empty. -/
def initializeChart : Chart := { labels := [], data := [] }

/-- Function `updateChart(price)`; `timeStr` is the value of
`new Date().toLocaleTimeString()` in this call. `push` appends at the end,
`shift` removes the first element; the closing `priceChart.update('none')`
redraws and changes neither array. -/
def updateChart (c : Chart) (timeStr : String) (price : JSVal) : Chart :=
  let labels := c.labels ++ [timeStr]
  let data := c.data ++ [price]
  if labels.length > maxDataPoints then
    { labels := labels.tail, data := data.tail }
  else
    { labels := labels, data := data }

/-- A sequence of `updateChart` calls, each with its time string and price,
applied to the chart from left to right. -/
def updateChartAll (c : Chart) (calls : List (String × JSVal)) : Chart :=
  calls.foldl (fun acc call => updateChart acc call.1 call.2) c

/-! ## The dashboard -/

/-- The DOM state the script writes. -/
structure View where
  /-- `textContent` of `#botMode`. -/
  botMode : String
  /-- `textContent` of `#botStatus`. -/
  botStatus : String
  /-- `className` of `#botStatus`. -/
  botStatusClass : String
  /-- `textContent` of `#balance`. -/
  balance : String
  /-- The value assigned to the `textContent` of `#openPositions`. -/
  openPositions : JSVal
  /-- `textContent` of `#pnl`. -/
  pnl : String
  /-- `className` of `#pnl`. -/
  pnlClass : String

/-- One call of `console.log` or `console.error`. -/
inductive ConsoleEntry where
  | log (text : String) : ConsoleEntry
  | errorVal (text : String) (arg : JSVal) : ConsoleEntry
  | errorExn (text : String) (arg : Thrown) : ConsoleEntry

/-- Everything the script mutates. -/
structure Dashboard where
  view : View
  chart : Chart
  console : List ConsoleEntry

/-- An HTTP response: its status code and, when the body is JSON, the parsed
body. -/
structure Response where
  status : Nat
  body : Option JSVal

/-- Property `response.ok`: the status is in the range 200 to 299. -/
def Response.ok (r : Response) : Bool := 200 ≤ r.status && r.status ≤ 299

/-- How an awaited `fetch` settles. -/
inductive FetchResult where
  | networkError : FetchResult
  | response (r : Response) : FetchResult

/-- Function `formatCurrency(value)`. -/
def formatCurrency (h : Host) (value : JSVal) : String := h.intlFormatUSD value

/-- Class of the status badge when the bot runs. -/
def runningClass : String :=
  "ml-2 px-3 py-1 rounded-full text-sm font-medium bg-green-100 text-green-800"

/-- Class of the status badge otherwise. -/
def stoppedClass : String :=
  "ml-2 px-3 py-1 rounded-full text-sm font-medium bg-red-100 text-red-800"

/-- Class of the PnL element for a PnL that is `>= 0`. -/
def pnlPositiveClass : String := "text-2xl font-semibold text-green-600"

/-- Class of the PnL element otherwise. -/
def pnlNegativeClass : String := "text-2xl font-semibold text-red-600"

/-! ## `updateStatus` -/

/-- The statements of `updateStatus` after `const data = await response.json()`
(lines 76 to 100), run on the parsed body `data`. The result is the dashboard
when the block is left and, when it is left by an exception, what was thrown:
the writes made before the throwing statement stay. -/
def applyStatus (h : Host) (timeStr : String) (data : JSVal) (s : Dashboard) :
    Dashboard × Option Thrown :=
  -- botMode.textContent = data.mode.toUpperCase()
  match getProp data "mode" >>= callToUpperCase h with
  | .error e => (s, some e)
  | .ok modeText =>
  let s1 : Dashboard := { s with view := { s.view with botMode := modeText } }
  -- botStatus.textContent = data.status.toUpperCase()
  match getProp data "status" >>= callToUpperCase h with
  | .error e => (s1, some e)
  | .ok statusText =>
  let s2 : Dashboard := { s1 with view := { s1.view with botStatus := statusText } }
  -- statusBadge.className = data.status === 'running' ? ... : ...
  match getProp data "status" with
  | .error e => (s2, some e)
  | .ok status =>
  let s3 : Dashboard := { s2 with view := { s2.view with
    botStatusClass := if strictEqStr status "running" then runningClass else stoppedClass } }
  -- balance.textContent = formatCurrency(data.balances.USDT)
  match getProp data "balances" >>= fun b => getProp b "USDT" with
  | .error e => (s3, some e)
  | .ok usdt =>
  let s4 : Dashboard := { s3 with view := { s3.view with balance := formatCurrency h usdt } }
  -- openPositions.textContent = data.positions.length
  match getProp data "positions" >>= fun ps => getProp ps "length" with
  | .error e => (s4, some e)
  | .ok len =>
  let s5 : Dashboard := { s4 with view := { s4.view with openPositions := len } }
  -- const pnl = data.total_pnl || 0
  match getProp data "total_pnl" with
  | .error e => (s5, some e)
  | .ok totalPnl =>
  let pnl := jsOr totalPnl (.num 0)
  -- pnlElement.textContent = formatCurrency(pnl); pnlElement.className = ...
  let s6 : Dashboard := { s5 with view := { s5.view with
    pnl := formatCurrency h pnl
    pnlClass := if geZero h pnl then pnlPositiveClass else pnlNegativeClass } }
  -- if (data.positions.length > 0)
  match getProp data "positions" >>= fun ps => getProp ps "length" with
  | .error e => (s6, some e)
  | .ok len2 =>
  if gtZero h len2 then
    -- const lastPosition = data.positions[0]; updateChart(lastPosition.current_price)
    match getProp data "positions" >>= getIndex0 with
    | .error e => (s6, some e)
    | .ok lastPosition =>
    match getProp lastPosition "current_price" with
    | .error e => (s6, some e)
    | .ok price => ({ s6 with chart := updateChart s6.chart timeStr price }, none)
  else
    (s6, none)

/-- The `try` block of `updateStatus`, run on the settled `fetch`. -/
def updateStatusTry (h : Host) (timeStr : String) (fetched : FetchResult) (s : Dashboard) :
    Dashboard × Option Thrown :=
  match fetched with
  | .networkError => (s, some .networkError)
  | .response r =>
    if !r.ok then
      (s, some (.error ("HTTP error! status: " ++ toString r.status)))
    else
      match r.body with
      | none => (s, some .syntaxError)
      | some data => applyStatus h timeStr data s

/-- Function `updateStatus()`, from the moment its `fetch('/api/status')`
settles with `fetched`. The second component is the exception the call passes
on to its caller (`none`: the returned promise is fulfilled); the `catch`
clause logs whatever the `try` block threw. -/
def updateStatus (h : Host) (timeStr : String) (fetched : FetchResult) (s : Dashboard) :
    Dashboard × Option Thrown :=
  match updateStatusTry h timeStr fetched s with
  | (s', none) => (s', none)
  | (s', some e) =>
    ({ s' with console := s'.console ++ [.errorExn "Error updating status:" e] }, none)

/-! ## `startBot` and `stopBot` -/

/-- The `try` block shared, up to its texts, by `startBot` and `stopBot`: the
entry written to the console, or what was thrown. -/
def commandTry (okText failText : String) (fetched : FetchResult) :
    Except Thrown ConsoleEntry :=
  match fetched with
  | .networkError => .error .networkError
  | .response r =>
    if !r.ok then
      .error (.error ("HTTP error! status: " ++ toString r.status))
    else
      match r.body with
      | none => .error .syntaxError
      | some result =>
        match getProp result "status" with
        | .error e => .error e
        | .ok status =>
          if strictEqStr status "success" then
            .ok (.log okText)
          else
            match getProp result "message" with
            | .error e => .error e
            | .ok message => .ok (.errorVal failText message)

/-- Function `startBot()`, from the moment its `fetch('/api/start')` settles:
the console entry it writes. The function returns no value; this entry is the
only report of the command's outcome. -/
def startBot (fetched : FetchResult) : ConsoleEntry :=
  match commandTry "Bot started successfully" "Failed to start bot:" fetched with
  | .ok entry => entry
  | .error e => .errorExn "Error starting bot:" e

/-- Function `stopBot()`, from the moment its `fetch('/api/stop')` settles. -/
def stopBot (fetched : FetchResult) : ConsoleEntry :=
  match commandTry "Bot stopped successfully" "Failed to stop bot:" fetched with
  | .ok entry => entry
  | .error e => .errorExn "Error stopping bot:" e

/-! ## The page's event loop -/

/-- The page: the dashboard, the number of `updateStatus` calls that have
issued their `fetch` and still await its response, and the number of
`/api/status` requests issued so far. -/
structure Page where
  dash : Dashboard
  outstanding : Nat
  fetches : Nat

/-- What the event loop delivers to the page. -/
inductive Event where
  /-- The interval timer of `setInterval(updateStatus, 1000)` fires. -/
  | tick : Event
  /-- The `fetch` of one awaiting `updateStatus` call settles. -/
  | statusSettled (fetched : FetchResult) (timeStr : String) : Event
  /-- A click on the start button whose `fetch` settles with `fetched`. -/
  | startSettled (fetched : FetchResult) : Event
  /-- A click on the stop button whose `fetch` settles with `fetched`. -/
  | stopSettled (fetched : FetchResult) : Event

/-- The `DOMContentLoaded` handler: `initializeChart()`, `setupEventListeners()`,
one immediate `updateStatus()` (which issues its `fetch` and awaits), and the
registration of the interval timer. -/
def domContentLoaded (view : View) : Page :=
  { dash := { view := view, chart := initializeChart, console := [] }
    outstanding := 1
    fetches := 1 }

/-- One event. A tick calls `updateStatus`, whose first action is the `fetch`:
the script keeps no flag and tests nothing before it. -/
def step (h : Host) (p : Page) : Event → Page
  | .tick => { p with outstanding := p.outstanding + 1, fetches := p.fetches + 1 }
  | .statusSettled fetched timeStr =>
    if p.outstanding = 0 then p
    else
      { p with
        dash := (updateStatus h timeStr fetched p.dash).1
        outstanding := p.outstanding - 1 }
  | .startSettled fetched =>
    { p with dash := { p.dash with console := p.dash.console ++ [startBot fetched] } }
  | .stopSettled fetched =>
    { p with dash := { p.dash with console := p.dash.console ++ [stopBot fetched] } }

/-- A sequence of events, from left to right. -/
def run (h : Host) (p : Page) (events : List Event) : Page :=
  events.foldl (step h) p

/-- Number of timer ticks in a sequence of events. -/
def countTicks : List Event → Nat
  | [] => 0
  | .tick :: rest => countTicks rest + 1
  | _ :: rest => countTicks rest

/-! ## Well-formed status payloads -/

/-- The value is a number. -/
def isNum : JSVal → Bool
  | .num _ => true
  | _ => false

/-- The value is a string. -/
def isStr : JSVal → Bool
  | .str _ => true
  | _ => false

/-- The value is an object whose `current_price` is a number. -/
def isPosition : JSVal → Bool
  | .obj fs => isNum (lookup "current_price" fs)
  | _ => false

/-- The body of a status response as the interface describes it: an object
with strings `mode` and `status`, an object `balances` with a number `USDT`,
an array `positions` of objects with a number `current_price`, and `total_pnl`
a number, `null` or absent. -/
def wellFormed : JSVal → Bool
  | .obj fs =>
    isStr (lookup "mode" fs) && isStr (lookup "status" fs) &&
    (match lookup "balances" fs with
      | .obj bs => isNum (lookup "USDT" bs)
      | _ => false) &&
    (match lookup "positions" fs with
      | .arr ps => ps.all isPosition
      | _ => false) &&
    (match lookup "total_pnl" fs with
      | .num _ => true
      | .null => true
      | .undefined => true
      | _ => false)
  | _ => false

/-! ## Readings of a status payload -/

/-- The value `totalPnl` in the words of the specification: `total_pnl` if it
is present and not null, else 0. -/
def specTotalPnl (data : JSVal) : ℚ :=
  match getProp data "total_pnl" with
  | .ok (.num q) => q
  | _ => 0

/-- The array `positions` of a payload. -/
def positionsOf (data : JSVal) : List JSVal :=
  match getProp data "positions" with
  | .ok (.arr ps) => ps
  | _ => []

/-- The `current_price` of a position. -/
def currentPriceOf (position : JSVal) : JSVal :=
  match getProp position "current_price" with
  | .ok v => v
  | .error _ => .undefined

/-- A well-formed status payload with the given `total_pnl` and one position. -/
def payloadWithPnl (totalPnl : JSVal) : JSVal :=
  .obj [("mode", .str "paper"), ("status", .str "running"), ("balances", .obj [("USDT", .num 1000)]),
    ("positions", .arr [.obj [("symbol", .str "BTCUSDT"), ("current_price", .num 50000)]]),
    ("total_pnl", totalPnl)]

/-! ## Sample data -/

/-- A host for evaluating examples: upper-casing of the ASCII letters, a
rendering of numbers that keeps the value apart from its layout, and `NaN` for
every coerced string or object. -/
def sampleHost : Host :=
  { toUpperCase := fun s => String.mk (s.data.map Char.toUpper)
    intlFormatUSD := fun v =>
      match v with
      | .num q => "$" ++ toString q
      | _ => "$NaN"
    toNumberHost := fun _ => none }

/-- A view before any status has arrived. -/
def sampleView : View :=
  { botMode := "-", botStatus := "-", botStatusClass := "", balance := "$0.00"
    openPositions := .num 0, pnl := "$0.00", pnlClass := "" }

/-- A dashboard before any status has arrived. -/
def sampleDashboard : Dashboard :=
  { view := sampleView, chart := initializeChart, console := [] }

/-- The body `{status: "error", message: "insufficient funds"}`. -/
def rejectedBody : JSVal :=
  .obj [("status", .str "error"), ("message", .str "insufficient funds")]

/-- A status payload without `balances`. -/
def payloadNoBalances : JSVal :=
  .obj [("mode", .str "paper"), ("status", .str "running"),
    ("positions", .arr [.obj [("symbol", .str "BTCUSDT"), ("current_price", .num 50000)]]),
    ("total_pnl", .num 12)]

/-- A status payload whose `balances` has no `USDT`. -/
def payloadNoUSDT : JSVal :=
  .obj [("mode", .str "paper"), ("status", .str "running"), ("balances", .obj []),
    ("positions", .arr [.obj [("symbol", .str "BTCUSDT"), ("current_price", .num 50000)]]),
    ("total_pnl", .num 12)]

/-- A well-formed status payload with the given `status` string. -/
def payloadWithStatus (status : String) : JSVal :=
  .obj [("mode", .str "paper"), ("status", .str status), ("balances", .obj [("USDT", .num 1000)]),
    ("positions", .arr []), ("total_pnl", .num 0)]

/-- An HTTP 200 response with the given parsed body. -/
def ok200 (body : JSVal) : FetchResult := .response { status := 200, body := some body }

/-! ## Lemmas about the chart -/

section ChartLemmas

theorem updateChartAll_snoc (c : Chart) (calls : List (String × JSVal)) (call : String × JSVal) :
    updateChartAll c (calls ++ [call]) = updateChart (updateChartAll c calls) call.1 call.2 := by
  simp [updateChartAll, List.foldl_append]

/-- Appending to the last hundred elements and shifting when the result is
longer than a hundred gives the last hundred elements of the longer list. -/
theorem drop_snoc_shift {α : Type} (l : List α) (x : α) :
    (l ++ [x]).drop ((l ++ [x]).length - 100) =
      if 100 ≤ l.length then (l.drop (l.length - 100) ++ [x]).tail
      else l.drop (l.length - 100) ++ [x] := by
  have hlen : (l ++ [x]).length = l.length + 1 := by simp
  split
  · rename_i hge
    have h1 : l.length + 1 - 100 = (l.length - 100) + 1 := by omega
    have h2 : l.length - 100 ≤ l.length := by omega
    rw [hlen, h1, ← List.drop_drop, List.drop_append_of_le_length h2, List.drop_one]
  · rename_i hlt
    have h1 : l.length + 1 - 100 = 0 := by omega
    have h2 : l.length - 100 = 0 := by omega
    rw [hlen, h1, h2]
    simp

/-- Closed form of the chart after any sequence of calls from the empty chart:
both arrays are the last hundred pushed items. -/
theorem updateChartAll_initializeChart (calls : List (String × JSVal)) :
    (updateChartAll initializeChart calls).labels
        = (calls.map Prod.fst).drop (calls.length - 100) ∧
    (updateChartAll initializeChart calls).data
        = (calls.map Prod.snd).drop (calls.length - 100) := by
  induction calls using List.reverseRecOn with
  | nil => simp [updateChartAll, initializeChart]
  | append_singleton calls call ih =>
    obtain ⟨ihl, ihd⟩ := ih
    have hl := drop_snoc_shift (calls.map Prod.fst) call.1
    have hd := drop_snoc_shift (calls.map Prod.snd) call.2
    simp only [List.length_map] at hl hd
    have hlen : (calls ++ [call]).length = (calls.map Prod.fst ++ [call.1]).length := by simp
    have hlen2 : (calls ++ [call]).length = (calls.map Prod.snd ++ [call.2]).length := by simp
    rw [updateChartAll_snoc]
    simp only [updateChart, ihl, ihd, maxDataPoints, List.map_append, List.map_cons, List.map_nil]
    have hcond : ((calls.map Prod.fst).drop (calls.length - 100) ++ [call.1]).length > 100
        ↔ 100 ≤ calls.length := by
      simp only [List.length_append, List.length_drop, List.length_map, List.length_singleton]
      omega
    by_cases hge : 100 ≤ calls.length
    · rw [if_pos (hcond.mpr hge)]
      rw [if_pos hge] at hl hd
      exact ⟨by rw [hlen, hl], by rw [hlen2, hd]⟩
    · rw [if_neg (fun hc => hge (hcond.mp hc))]
      rw [if_neg hge] at hl hd
      exact ⟨by rw [hlen, hl], by rw [hlen2, hd]⟩

end ChartLemmas

/-! ## Properties of the chart -/

/-- C1. From the empty chart of `initializeChart`, after every call of a
sequence of `updateChart` calls the series holds at most 100 points, and the
values are the last 100 pushed prices in the order of the pushes (all of them
while at most 100 have been pushed): the series has `min n 100` points after
`n` pushes and equals the pushed prices without their first `n - 100`. -/
theorem updateChart_bounded_most_recent (calls : List (String × JSVal)) :
    (∀ k : Nat,
      (updateChartAll initializeChart (calls.take k)).labels.length ≤ 100 ∧
      (updateChartAll initializeChart (calls.take k)).data.length ≤ 100) ∧
    (updateChartAll initializeChart calls).data.length = min calls.length 100 ∧
    (updateChartAll initializeChart calls).data
      = (calls.map Prod.snd).drop (calls.length - 100) := by
  refine ⟨fun k => ?_, ?_, (updateChartAll_initializeChart calls).2⟩
  · obtain ⟨hl, hd⟩ := updateChartAll_initializeChart (calls.take k)
    rw [hl, hd]
    simp only [List.length_drop, List.length_map]
    omega
  · rw [(updateChartAll_initializeChart calls).2]
    simp only [List.length_drop, List.length_map]
    omega

/-- C9. For every chart whose two arrays have the same length (any length, 100
and more included) and every price, `updateChart` appends the new label and the
new value at the tail and, exactly when the old length was at least 100 (the
new length exceeds 100), removes the head of each array; nothing else moves.
The arrays have the same length afterwards. -/
theorem updateChart_fifo (c : Chart) (timeStr : String) (price : JSVal)
    (hlen : c.labels.length = c.data.length) :
    (updateChart c timeStr price).labels
      = (if 100 ≤ c.labels.length then c.labels.tail ++ [timeStr] else c.labels ++ [timeStr]) ∧
    (updateChart c timeStr price).data
      = (if 100 ≤ c.data.length then c.data.tail ++ [price] else c.data ++ [price]) ∧
    (updateChart c timeStr price).labels.length = (updateChart c timeStr price).data.length := by
  obtain ⟨labels, data⟩ := c
  simp only at hlen
  have hcond : (labels ++ [timeStr]).length > 100 ↔ 100 ≤ labels.length := by
    simp only [List.length_append, List.length_singleton]
    omega
  by_cases hge : 100 ≤ labels.length
  · have hge2 : 100 ≤ data.length := hlen ▸ hge
    have hl : labels ≠ [] := by
      intro h0
      rw [h0] at hge
      simp at hge
    have hd : data ≠ [] := by
      intro h0
      rw [h0] at hge2
      simp at hge2
    simp only [updateChart, maxDataPoints, if_pos (hcond.mpr hge), if_pos hge, if_pos hge2]
    refine ⟨?_, ?_, ?_⟩
    · cases labels with
      | nil => exact absurd rfl hl
      | cons a l => rfl
    · cases data with
      | nil => exact absurd rfl hd
      | cons a l => rfl
    · simp [hlen]
  · have hge2 : ¬ 100 ≤ data.length := hlen ▸ hge
    simp only [updateChart, maxDataPoints, if_neg (fun hc => hge (hcond.mp hc)), if_neg hge,
      if_neg hge2]
    simp [hlen]

/-- Witness of `updateChart_fifo`: a chart of 100 points receives one more. -/
theorem updateChart_fifo_witness :
    (List.replicate 100 "t").length = (List.replicate 100 (JSVal.num 1)).length ∧
    (updateChart { labels := List.replicate 100 "t", data := List.replicate 100 (JSVal.num 1) }
        "u" (JSVal.num 2)).labels.length = 100 := by
  have hlen : (List.replicate 100 "t").length = (List.replicate 100 (JSVal.num 1)).length := by
    simp
  refine ⟨hlen, ?_⟩
  have h := (updateChart_fifo
    { labels := List.replicate 100 "t", data := List.replicate 100 (JSVal.num 1) }
    "u" (JSVal.num 2) hlen).1
  rw [h]
  simp

/-- C10. From the empty chart of `initializeChart`, after every sequence of
`updateChart` calls the labels array and the data array have the same length,
and pairing them position by position gives the last (at most 100) calls: the
i-th label and the i-th value were pushed by the same call. -/
theorem updateChart_labels_data_aligned (calls : List (String × JSVal)) :
    (updateChartAll initializeChart calls).labels.length
      = (updateChartAll initializeChart calls).data.length ∧
    List.zip (updateChartAll initializeChart calls).labels
        (updateChartAll initializeChart calls).data
      = calls.drop (calls.length - 100) := by
  obtain ⟨hl, hd⟩ := updateChartAll_initializeChart calls
  rw [hl, hd]
  refine ⟨by simp, ?_⟩
  rw [← List.map_drop, ← List.map_drop, List.zip_map_left, List.zip_map_right]
  generalize calls.drop (calls.length - 100) = l
  induction l with
  | nil => rfl
  | cons a l ih => simpa using ih

/-! ## Lemmas about `updateStatus` -/

section StatusLemmas

/-- On a 2xx response with a JSON body, `updateStatus` ends with the view and
the chart that `applyStatus` leaves, and passes no exception on. -/
theorem updateStatus_of_ok (h : Host) (timeStr : String) (r : Response) (data : JSVal)
    (s : Dashboard) (hok : r.ok = true) (hbody : r.body = some data) :
    (updateStatus h timeStr (.response r) s).1.view = (applyStatus h timeStr data s).1.view ∧
    (updateStatus h timeStr (.response r) s).1.chart = (applyStatus h timeStr data s).1.chart ∧
    (updateStatus h timeStr (.response r) s).2 = none := by
  simp only [updateStatus, updateStatusTry, hok, hbody]
  rcases applyStatus h timeStr data s with ⟨s', _ | e⟩ <;> simp

/-- What `applyStatus` does with a well-formed payload: every statement runs,
nothing is thrown. -/
theorem applyStatus_wellFormed (h : Host) (timeStr : String) (data : JSVal) (s : Dashboard)
    (hwf : wellFormed data = true) :
    (applyStatus h timeStr data s).1.view.openPositions = .num (positionsOf data).length ∧
    (applyStatus h timeStr data s).1.view.pnl = formatCurrency h (.num (specTotalPnl data)) ∧
    (applyStatus h timeStr data s).1.view.pnlClass
      = (if 0 ≤ specTotalPnl data then pnlPositiveClass else pnlNegativeClass) ∧
    (applyStatus h timeStr data s).1.chart
      = (match positionsOf data with
        | [] => s.chart
        | p :: _ => updateChart s.chart timeStr (currentPriceOf p)) ∧
    (applyStatus h timeStr data s).2 = none := by
  cases data with
  | obj fs =>
    simp only [wellFormed, Bool.and_eq_true] at hwf
    obtain ⟨⟨⟨⟨hm, hs⟩, hb⟩, hp⟩, ht⟩ := hwf
    cases hmode : lookup "mode" fs <;> simp [hmode, isStr] at hm
    cases hstatus : lookup "status" fs <;> simp [hstatus, isStr] at hs
    cases hbal : lookup "balances" fs <;> simp [hbal] at hb
    rename_i bs
    cases husdt : lookup "USDT" bs <;> simp [husdt, isNum] at hb
    cases hpos : lookup "positions" fs <;> simp [hpos] at hp
    rename_i ps
    have hpnl : jsOr (lookup "total_pnl" fs) (.num 0) = .num (specTotalPnl (.obj fs)) := by
      cases htot : lookup "total_pnl" fs <;> simp [htot] at ht
      · simp [jsOr, truthy, specTotalPnl, getProp, htot]
      · simp [jsOr, truthy, specTotalPnl, getProp, htot]
      · rename_i q
        by_cases hq : q = 0
        · simp [jsOr, truthy, specTotalPnl, getProp, htot, hq]
        · simp [jsOr, truthy, specTotalPnl, getProp, htot, hq]
    have hge : geZero h (.num (specTotalPnl (.obj fs))) = decide (0 ≤ specTotalPnl (.obj fs)) := rfl
    cases ps with
    | nil =>
      simp [applyStatus, getProp, bind, Except.bind, callToUpperCase, hmode, hstatus, hbal, husdt,
        hpos, hpnl, hge, gtZero, toNumber, positionsOf]
    | cons p rest =>
      have hp1 : isPosition p = true := by
        simp at hp
        exact hp.1
      cases p <;> simp [isPosition] at hp1
      rename_i pf
      cases hprice : lookup "current_price" pf <;> simp [hprice, isNum] at hp1
      have hlen : (0 : ℚ) < (rest.length : ℚ) + 1 := by positivity
      simp [applyStatus, getProp, bind, Except.bind, callToUpperCase, hmode, hstatus, hbal, husdt,
        hpos, hpnl, hge, gtZero, toNumber, positionsOf, getIndex0, currentPriceOf, hprice, hlen]
  | _ => simp [wellFormed] at hwf


end StatusLemmas

/-! ## `updateStatus` on rejected and ill-formed responses -/

/-- C6. When the status fetch answers with an HTTP status outside 200 to 299,
`updateStatus` leaves the view and the chart as they were, writes the error to
the console and passes no exception on to its caller. -/
theorem updateStatus_http_error_keeps_state (h : Host) (timeStr : String) (r : Response)
    (s : Dashboard) (hr : r.ok = false) :
    (updateStatus h timeStr (.response r) s).1.view = s.view ∧
    (updateStatus h timeStr (.response r) s).1.chart = s.chart ∧
    (updateStatus h timeStr (.response r) s).1.console
      = s.console ++
        [.errorExn "Error updating status:" (.error ("HTTP error! status: " ++ toString r.status))] ∧
    (updateStatus h timeStr (.response r) s).2 = none := by
  simp [updateStatus, updateStatusTry, hr]

/-- Witness of `updateStatus_http_error_keeps_state`: an HTTP 500 answer. -/
theorem updateStatus_http_error_keeps_state_witness :
    Response.ok { status := 500, body := none } = false ∧
    (updateStatus sampleHost "12:00:00" (.response { status := 500, body := none })
      sampleDashboard).1.chart = sampleDashboard.chart :=
  ⟨by decide,
    (updateStatus_http_error_keeps_state sampleHost "12:00:00" { status := 500, body := none }
      sampleDashboard (by decide)).2.1⟩

/-- C2, counterexample. A payload without `balances` changes the mode, the run
status and the badge class before the missing object is read; a payload whose
`balances` has no `USDT` is applied in full: the balance text is overwritten and
a point is pushed to the chart. -/
theorem updateStatus_missing_usdt_changes_state :
    (updateStatus sampleHost "12:00:00" (ok200 payloadNoBalances) sampleDashboard).1.view.botMode
      = "PAPER" ∧
    sampleDashboard.view.botMode = "-" ∧
    (updateStatus sampleHost "12:00:00" (ok200 payloadNoBalances)
      sampleDashboard).1.view.botStatusClass = runningClass ∧
    sampleDashboard.view.botStatusClass = "" ∧
    (updateStatus sampleHost "12:00:00" (ok200 payloadNoUSDT) sampleDashboard).1.view.balance
      = "$NaN" ∧
    sampleDashboard.view.balance = "$0.00" ∧
    (updateStatus sampleHost "12:00:00" (ok200 payloadNoUSDT) sampleDashboard).1.chart.labels
      = ["12:00:00"] ∧
    sampleDashboard.chart.labels = [] := by
  refine ⟨?_, ?_, ?_, ?_, ?_, ?_, ?_, ?_⟩ <;> decide

/-- C2, amended. For every status payload whose `balances` is absent
(`undefined`) or `null`, one `updateStatus` run leaves the balance, the
open-position count, the PnL and its class as they were, pushes nothing to the
chart and passes no exception on. -/
theorem updateStatus_absent_balances (h : Host) (timeStr : String) (r : Response)
    (data : JSVal) (s : Dashboard) (hok : r.ok = true) (hbody : r.body = some data)
    (hb : getProp data "balances" = .ok .undefined ∨ getProp data "balances" = .ok .null) :
    (updateStatus h timeStr (.response r) s).1.view.balance = s.view.balance ∧
    (updateStatus h timeStr (.response r) s).1.view.openPositions = s.view.openPositions ∧
    (updateStatus h timeStr (.response r) s).1.view.pnl = s.view.pnl ∧
    (updateStatus h timeStr (.response r) s).1.view.pnlClass = s.view.pnlClass ∧
    (updateStatus h timeStr (.response r) s).1.chart = s.chart ∧
    (updateStatus h timeStr (.response r) s).2 = none := by
  obtain ⟨hv, hc, hn⟩ := updateStatus_of_ok h timeStr r data s hok hbody
  rw [hv, hc, hn]
  have hthrow : (getProp data "balances" >>= fun b => getProp b "USDT") = .error .typeError := by
    rcases hb with hb | hb <;> rw [hb] <;> rfl
  simp only [applyStatus, hthrow]
  cases getProp data "mode" >>= callToUpperCase h with
  | error e => simp
  | ok modeText =>
    cases getProp data "status" >>= callToUpperCase h with
    | error e => simp
    | ok statusText =>
      cases getProp data "status" with
      | error e => simp
      | ok status => simp

/-- Witness of `updateStatus_absent_balances`: the payload without `balances`. -/
theorem updateStatus_absent_balances_witness :
    Response.ok { status := 200, body := some payloadNoBalances } = true ∧
    getProp payloadNoBalances "balances" = .ok .undefined ∧
    (updateStatus sampleHost "12:00:00" (ok200 payloadNoBalances) sampleDashboard).1.chart
      = sampleDashboard.chart :=
  ⟨by decide, rfl,
    (updateStatus_absent_balances sampleHost "12:00:00"
      { status := 200, body := some payloadNoBalances } payloadNoBalances sampleDashboard
      (by decide) rfl (Or.inl rfl)).2.2.2.2.1⟩

/-! ## The class of the status badge -/

/-- C3, counterexample. The statuses `"RUNNING"` and `"Running"` get the stopped
class: the comparison with `'running'` is exact. -/
theorem updateStatus_uppercase_running_is_stopped :
    (updateStatus sampleHost "12:00:00" (ok200 (payloadWithStatus "RUNNING"))
      sampleDashboard).1.view.botStatusClass = stoppedClass ∧
    (updateStatus sampleHost "12:00:00" (ok200 (payloadWithStatus "Running"))
      sampleDashboard).1.view.botStatusClass = stoppedClass ∧
    stoppedClass ≠ runningClass := by
  refine ⟨?_, ?_, ?_⟩ <;> decide

/-- C3, amended. For every status string `st` of a status payload (with a
string `mode`), `updateStatus` assigns the running class to the status badge if
and only if `st` is exactly `"running"`, and the stopped class otherwise; no
third class is assigned. -/
theorem updateStatus_badge_class_exact (h : Host) (timeStr : String) (r : Response)
    (data : JSVal) (s : Dashboard) (m st : String) (hok : r.ok = true)
    (hbody : r.body = some data) (hm : getProp data "mode" = .ok (.str m))
    (hs : getProp data "status" = .ok (.str st)) :
    (updateStatus h timeStr (.response r) s).1.view.botStatusClass
      = (if st = "running" then runningClass else stoppedClass) := by
  rw [(updateStatus_of_ok h timeStr r data s hok hbody).1]
  have hup : ∀ x : String,
      (Except.ok (JSVal.str x) >>= callToUpperCase h) = .ok (h.toUpperCase x) := fun _ => rfl
  simp only [applyStatus, hm, hs, hup, strictEqStr, beq_iff_eq]
  cases getProp data "balances" >>= fun b => getProp b "USDT" with
  | error e => simp
  | ok usdt =>
    cases getProp data "positions" >>= fun ps => getProp ps "length" with
    | error e => simp
    | ok len =>
      cases getProp data "total_pnl" with
      | error e => simp
      | ok totalPnl =>
        simp only
        split
        · cases getProp data "positions" >>= getIndex0 with
          | error e => simp
          | ok lastPosition =>
            simp only []
            cases getProp lastPosition "current_price" with
            | error e => simp
            | ok price => simp
        · simp

/-- Witness of `updateStatus_badge_class_exact`: the status `"running"`. -/
theorem updateStatus_badge_class_exact_witness :
    Response.ok { status := 200, body := some (payloadWithStatus "running") } = true ∧
    (updateStatus sampleHost "12:00:00" (ok200 (payloadWithStatus "running"))
      sampleDashboard).1.view.botStatusClass = runningClass :=
  ⟨by decide,
    updateStatus_badge_class_exact sampleHost "12:00:00"
      { status := 200, body := some (payloadWithStatus "running") }
      (payloadWithStatus "running") sampleDashboard "paper" "running" (by decide) rfl rfl rfl⟩

/-! ## `updateStatus` on well-formed payloads -/

/-- C7. For every well-formed status payload the PnL value that `updateStatus`
formats is `total_pnl` when that field is present and not null and 0 otherwise
(`specTotalPnl`), and the PnL element gets the positive class exactly when that
value is `>= 0` and the negative class otherwise. So `total_pnl = -5` gives the
negative class, `total_pnl = 0` the positive class, and an omitted or null
`total_pnl` the value and class of `total_pnl = 0`. -/
theorem updateStatus_pnl_value_and_class (h : Host) (timeStr : String) (r : Response)
    (data : JSVal) (s : Dashboard) (hok : r.ok = true) (hbody : r.body = some data)
    (hwf : wellFormed data = true) :
    (updateStatus h timeStr (.response r) s).1.view.pnl
      = formatCurrency h (.num (specTotalPnl data)) ∧
    (updateStatus h timeStr (.response r) s).1.view.pnlClass
      = (if 0 ≤ specTotalPnl data then pnlPositiveClass else pnlNegativeClass) := by
  rw [(updateStatus_of_ok h timeStr r data s hok hbody).1]
  exact ⟨(applyStatus_wellFormed h timeStr data s hwf).2.1,
    (applyStatus_wellFormed h timeStr data s hwf).2.2.1⟩

/-- Witness of `updateStatus_pnl_value_and_class`: `total_pnl = -5` gives the
negative class. -/
theorem updateStatus_pnl_value_and_class_witness :
    Response.ok { status := 200, body := some (payloadWithPnl (.num (-5))) } = true ∧
    wellFormed (payloadWithPnl (.num (-5))) = true ∧
    (updateStatus sampleHost "12:00:00" (ok200 (payloadWithPnl (.num (-5))))
      sampleDashboard).1.view.pnlClass = pnlNegativeClass := by
  refine ⟨by decide, by decide, ?_⟩
  have hthm := (updateStatus_pnl_value_and_class sampleHost "12:00:00"
    { status := 200, body := some (payloadWithPnl (.num (-5))) } (payloadWithPnl (.num (-5)))
    sampleDashboard (by decide) rfl (by decide)).2
  have hval : specTotalPnl (payloadWithPnl (.num (-5))) = -5 := rfl
  rw [hval] at hthm
  rw [show ok200 (payloadWithPnl (.num (-5)))
    = .response { status := 200, body := some (payloadWithPnl (.num (-5))) } from rfl, hthm]
  simp

/-- C8. For every well-formed status payload, `updateStatus` sets the
open-position count to the length of `positions`; when `positions` is empty the
chart is left as it was, and when it is not, the chart is the result of exactly
one `updateChart` call with the `current_price` of `positions[0]`. -/
theorem updateStatus_pushes_first_position (h : Host) (timeStr : String) (r : Response)
    (data : JSVal) (s : Dashboard) (hok : r.ok = true) (hbody : r.body = some data)
    (hwf : wellFormed data = true) :
    (updateStatus h timeStr (.response r) s).1.view.openPositions
      = .num (positionsOf data).length ∧
    (updateStatus h timeStr (.response r) s).1.chart
      = (match positionsOf data with
        | [] => s.chart
        | p :: _ => updateChart s.chart timeStr (currentPriceOf p)) := by
  rw [(updateStatus_of_ok h timeStr r data s hok hbody).1,
    (updateStatus_of_ok h timeStr r data s hok hbody).2.1]
  exact ⟨(applyStatus_wellFormed h timeStr data s hwf).1,
    (applyStatus_wellFormed h timeStr data s hwf).2.2.2.1⟩

/-- Witness of `updateStatus_pushes_first_position`: with `positions: []` the
chart stays empty. -/
theorem updateStatus_pushes_first_position_witness :
    Response.ok { status := 200, body := some (payloadWithStatus "running") } = true ∧
    wellFormed (payloadWithStatus "running") = true ∧
    (updateStatus sampleHost "12:00:00" (ok200 (payloadWithStatus "running"))
      sampleDashboard).1.chart = sampleDashboard.chart :=
  ⟨by decide, by decide,
    (updateStatus_pushes_first_position sampleHost "12:00:00"
      { status := 200, body := some (payloadWithStatus "running") }
      (payloadWithStatus "running") sampleDashboard (by decide) rfl (by decide)).2⟩

/-! ## The outcome of `startBot` and `stopBot` -/

section CommandLemmas

theorem strictEqStr_eq_true (v : JSVal) (t : String) :
    strictEqStr v t = true ↔ v = .str t := by
  cases v <;> simp [strictEqStr]

/-- The two ways the `try` block of a command ends: with the success text, on a
2xx response whose body has the status `"success"`, or else with an exception or
the failure text. -/
theorem commandTry_cases (okText failText : String) (fetched : FetchResult) :
    (commandTry okText failText fetched = .ok (.log okText) ∧
      ∃ r result, fetched = .response r ∧ r.ok = true ∧ r.body = some result ∧
        getProp result "status" = .ok (.str "success")) ∨
    (((∃ e, commandTry okText failText fetched = .error e) ∨
        (∃ m, commandTry okText failText fetched = .ok (.errorVal failText m))) ∧
      ¬ ∃ r result, fetched = .response r ∧ r.ok = true ∧ r.body = some result ∧
        getProp result "status" = .ok (.str "success")) := by
  cases fetched with
  | networkError => simp [commandTry]
  | response r =>
    by_cases hok : r.ok = true
    · cases hb : r.body with
      | none => simp [commandTry, hok, hb]
      | some result =>
        cases hst : getProp result "status" with
        | error e => simp [commandTry, hok, hb, hst]
        | ok status =>
          by_cases heq : strictEqStr status "success" = true
          · have hv := (strictEqStr_eq_true status "success").mp heq
            subst hv
            simp [commandTry, hok, hb, hst, heq]
          · have hv : status ≠ .str "success" :=
              fun hc => heq ((strictEqStr_eq_true status "success").mpr hc)
            cases hmsg : getProp result "message" with
            | error e => simp [commandTry, hok, hb, hst, heq, hmsg, hv]
            | ok message => simp [commandTry, hok, hb, hst, heq, hmsg, hv]
    · simp [commandTry, hok]

/-- A property read that succeeds for one name succeeds for every name. -/
theorem getProp_ok_of_ok (v w : JSVal) (k k' : String) (hk : getProp v k = .ok w) :
    ∃ w', getProp v k' = .ok w' := by
  cases v <;> simp [getProp] at hk ⊢

end CommandLemmas

/-- C4. The console entry of `startBot` (and of `stopBot`) is the only report of
the command's outcome: the success text is SUCCESS, an error entry is FAILURE.
The entry is the success text if and only if the response is 2xx and the
body's `status` is exactly `"success"`; and for every HTTP 200 response whose
body's `status` is any other value, the entry is the failure text with the
body's `message` as its detail. -/
theorem command_outcome_follows_body (fetched : FetchResult) :
    (startBot fetched = .log "Bot started successfully" ↔
      ∃ r result, fetched = .response r ∧ r.ok = true ∧ r.body = some result ∧
        getProp result "status" = .ok (.str "success")) ∧
    (stopBot fetched = .log "Bot stopped successfully" ↔
      ∃ r result, fetched = .response r ∧ r.ok = true ∧ r.body = some result ∧
        getProp result "status" = .ok (.str "success")) ∧
    (∀ (r : Response) (result status : JSVal), fetched = .response r → r.status = 200 →
      r.body = some result → getProp result "status" = .ok status → status ≠ .str "success" →
      ∃ message, getProp result "message" = .ok message ∧
        startBot fetched = .errorVal "Failed to start bot:" message ∧
        stopBot fetched = .errorVal "Failed to stop bot:" message) := by
  refine ⟨?_, ?_, ?_⟩
  · rcases commandTry_cases "Bot started successfully" "Failed to start bot:" fetched with
      ⟨hc, hs⟩ | ⟨⟨e, hc⟩ | ⟨m, hc⟩, hs⟩ <;> simp only [startBot, hc]
    · exact ⟨fun _ => hs, fun _ => trivial⟩
    · exact ⟨fun hlog => by simp at hlog, fun hex => absurd hex hs⟩
    · exact ⟨fun hlog => by simp at hlog, fun hex => absurd hex hs⟩
  · rcases commandTry_cases "Bot stopped successfully" "Failed to stop bot:" fetched with
      ⟨hc, hs⟩ | ⟨⟨e, hc⟩ | ⟨m, hc⟩, hs⟩ <;> simp only [stopBot, hc]
    · exact ⟨fun _ => hs, fun _ => trivial⟩
    · exact ⟨fun hlog => by simp at hlog, fun hex => absurd hex hs⟩
    · exact ⟨fun hlog => by simp at hlog, fun hex => absurd hex hs⟩
  · intro r result status hf h200 hbody hst hne
    obtain ⟨message, hmsg⟩ := getProp_ok_of_ok result status "status" "message" hst
    have hok : r.ok = true := by simp [Response.ok, h200]
    have heq : strictEqStr status "success" = false := by
      cases hb : strictEqStr status "success" with
      | false => rfl
      | true => exact absurd ((strictEqStr_eq_true status "success").mp hb) hne
    refine ⟨message, hmsg, ?_, ?_⟩
    · simp [startBot, commandTry, hf, hok, hbody, hst, heq, hmsg]
    · simp [stopBot, commandTry, hf, hok, hbody, hst, heq, hmsg]

/-- Witness of `command_outcome_follows_body`: HTTP 200 with the body
`{status: "error", message: "insufficient funds"}` gives the failure text with
the detail `"insufficient funds"`. -/
theorem command_outcome_follows_body_witness :
    ∃ message, getProp rejectedBody "message" = .ok message ∧
      startBot (ok200 rejectedBody) = .errorVal "Failed to start bot:" message ∧
      stopBot (ok200 rejectedBody) = .errorVal "Failed to stop bot:" message :=
  (command_outcome_follows_body (ok200 rejectedBody)).2.2
    { status := 200, body := some rejectedBody } rejectedBody (.str "error") rfl rfl rfl rfl
    (by simp)

/-! ## The polling timer -/

section PollingLemmas

theorem run_fetches (h : Host) (events : List Event) (p : Page) :
    (run h p events).fetches = p.fetches + countTicks events := by
  induction events generalizing p with
  | nil => simp [run, countTicks]
  | cons ev rest ih =>
    have hstep : run h p (ev :: rest) = run h (step h p ev) rest := rfl
    rw [hstep, ih]
    cases ev with
    | tick => simp only [step, countTicks]; omega
    | statusSettled fetched timeStr =>
      simp only [step, countTicks]
      split <;> rfl
    | startSettled fetched => simp [step, countTicks]
    | stopSettled fetched => simp [step, countTicks]

theorem run_ticks_outstanding (h : Host) (n : Nat) (p : Page) :
    (run h p (List.replicate n .tick)).outstanding = p.outstanding + n := by
  induction n generalizing p with
  | zero => simp [run]
  | succ n ih =>
    have hstep : run h p (List.replicate (n + 1) .tick) =
        run h (step h p .tick) (List.replicate n .tick) := rfl
    rw [hstep, ih]
    simp only [step]
    omega

end PollingLemmas

/-- C5, counterexample. One timer tick after page load, while the first
`updateStatus` still awaits its response, issues a second status fetch: two
reconciliations are outstanding. -/
theorem tick_while_in_flight_fetches_again :
    (run sampleHost (domContentLoaded sampleView) [.tick]).outstanding = 2 ∧
    (run sampleHost (domContentLoaded sampleView) [.tick]).fetches = 2 ∧
    (domContentLoaded sampleView).outstanding = 1 := by
  refine ⟨?_, ?_, ?_⟩ <;> rfl

/-- C5, amended. Every timer tick issues a new status fetch, whether or not an
earlier reconciliation still awaits its response: after any sequence of events
the number of status fetches issued is one (the call at page load) plus the
number of ticks, and after `n` ticks without a settled response `n + 1`
reconciliations are outstanding. -/
theorem every_tick_issues_a_fetch (h : Host) (view : View) (events : List Event) (n : Nat) :
    (run h (domContentLoaded view) events).fetches = 1 + countTicks events ∧
    (run h (domContentLoaded view) (List.replicate n .tick)).outstanding = n + 1 := by
  refine ⟨run_fetches h events (domContentLoaded view), ?_⟩
  rw [run_ticks_outstanding h n (domContentLoaded view)]
  simp only [domContentLoaded]
  omega

end TradingBotUI
